import Mathlib

/-!
# KP_GB_Emu memory subsystem (`KP_GB_Emu/mmu.cpp`)

A shallow embedding of the address-space dispatcher `Memory` and of the bank
controllers `MBC`, `MBC1` and `MBC3`.

* Bytes, addresses and offsets are natural numbers; arithmetic carried out in
  the 32-bit type `DWORD` (`ext_address`) is reduced modulo `2 ^ 32`.  The local
  `ext_address addr = h_addr` is a widening copy, so the embedding uses `h_addr`
  for both.
* Buffers (`wram`, `vram`, `oam`, `cartRam`, `rtc`) are lists of bytes.  An
  access outside a buffer has no defined result in C++, so every read returns
  an `Option Nat` and every write an `Option` of the next state: `none` is an
  out-of-bounds access.
* The cartridge behind `core->cartridge` and the I/O handlers `getIO` / `setIO`
  are declared outside `mmu.cpp`; they are parameters of the embedding.
-/

namespace KPGB

/-! ## Machine arithmetic and buffers -/

/-- Number of values of the 32-bit type `DWORD`. -/
def DWORD_SIZE : Nat := 4294967296

/-- Number of values of the 16-bit type `WORD`. -/
def WORD_SIZE : Nat := 65536

/-- Addition `x + y` in `DWORD` arithmetic. -/
def addDW (x y : Nat) : Nat := (x + y) % DWORD_SIZE

/-- Subtraction `x - y` in `DWORD` arithmetic (wraps below zero). -/
def subDW (x y : Nat) : Nat := (x + DWORD_SIZE - y % DWORD_SIZE) % DWORD_SIZE

/-- Element read `buf[i]`; `none` outside the buffer. -/
def readAt (buf : List Nat) (i : Nat) : Option Nat := buf[i]?

/-- Element write `buf[i] = v`; `none` outside the buffer. -/
def writeAt (buf : List Nat) (i v : Nat) : Option (List Nat) :=
  if i < buf.length then some (buf.set i v) else none

/-- Element write `buf[i] = v` with a signed index; `none` outside the buffer. -/
def writeAtInt (buf : List Nat) (i : Int) (v : Nat) : Option (List Nat) :=
  if 0 ≤ i then writeAt buf i.toNat v else none

/-- Modelled from the spec: the header constant `ROM_PAGE_LEN` is not part of
`mmu.cpp`; the switchable ROM window 0x4000–0x7FFF holds one page. -/
def ROM_PAGE_LEN : Nat := 0x4000

/-- Modelled from the spec: the header constant `RAM_PAGE_LEN` is not part of
`mmu.cpp`; the cartridge RAM window 0xA000–0xBFFF holds one page. -/
def RAM_PAGE_LEN : Nat := 0x2000

/-! ## Collaborators declared outside `mmu.cpp` -/

/-- The cartridge reached through `core->cartridge`: ROM bytes by offset and
the cartridge metadata. -/
structure Cartridge where
  romdata : Nat → Nat
  getRamBanks : Nat
  hasBattery : Bool
  isColorGB : Bool

/-- The I/O sub-handler behind `getIO` / `setIO`, acting on a register state of
type `ι`. -/
structure IoHandler (ι : Type) where
  getIO : ι → Nat → Nat
  setIO : ι → Nat → Nat → ι

/-! ## State -/

/-- Fields of `class Memory`. -/
structure Memory (ι : Type) where
  wram : List Nat
  vram : List Nat
  oam : List Nat
  io : ι
  romPageStart : Nat
  vramPageStart : Nat
  wramPageStart : Nat

/-- Fields of `class MBC : Memory`. -/
structure MBC (ι : Type) extends Memory ι where
  ramPageStart : Nat
  ramEnabled : Bool
  cartRam : List Nat
  cartRamSize : Nat

/-- Fields of `class MBC1 : MBC`. -/
structure MBC1 (ι : Type) extends MBC ι where
  modeSelect : Bool
  romBank : Nat

/-- Fields of `class MBC3 : MBC`; `ramBank` is an `int16`. -/
structure MBC3 (ι : Type) extends MBC ι where
  ramBank : Int
  rtcEnabled : Bool
  rtc : List Nat

/-! ## `Memory` -/

/-- The method `Memory::setValue`. -/
def Memory.setValue {ι : Type} (P : IoHandler ι) (m : Memory ι) (h_addr value : Nat) :
    Option (Memory ι) :=
  match hm : h_addr &&& 0xF000 with
  | 0x0000 | 0x1000 | 0x2000 | 0x3000 | 0x4000 | 0x5000 | 0x6000 | 0x7000 =>
    some m
  | 0x8000 | 0x9000 =>
    (writeAt m.vram (subDW (addDW m.vramPageStart h_addr) 0x8000) value).map
      (fun b => { m with vram := b })
  | 0xA000 | 0xB000 =>
    some m
  | 0xC000 =>
    (writeAt m.wram (subDW h_addr 0xC000) value).map (fun b => { m with wram := b })
  | 0xD000 =>
    (writeAt m.wram (subDW (addDW m.wramPageStart h_addr) 0xD000) value).map
      (fun b => { m with wram := b })
  | 0xE000 | 0xF000 =>
    if 0xFEA0 ≤ h_addr ∧ h_addr ≤ 0xFEFF then some m
    else if h_addr < 0xFE00 then Memory.setValue P m (h_addr - 0xE000) value
    else if h_addr < 0xFF00 then
      (writeAt m.oam (subDW h_addr 0xFE00) value).map (fun b => { m with oam := b })
    else some { m with io := P.setIO m.io (subDW h_addr 0xFF00) value }
  | _ => some m
termination_by h_addr
decreasing_by all_goals (have hle := @Nat.and_le_left h_addr 0xF000; omega)

/-- The method `Memory::getValue`. -/
def Memory.getValue {ι : Type} (P : IoHandler ι) (c : Cartridge) (m : Memory ι)
    (h_addr : Nat) : Option Nat :=
  match hm : h_addr &&& 0xF000 with
  | 0x0000 | 0x1000 | 0x2000 | 0x3000 =>
    some (c.romdata h_addr)
  | 0x4000 | 0x5000 | 0x6000 | 0x7000 =>
    some (c.romdata (subDW (addDW m.romPageStart h_addr) 0x4000))
  | 0x8000 | 0x9000 =>
    readAt m.vram (subDW (addDW m.vramPageStart h_addr) 0x8000)
  | 0xA000 | 0xB000 =>
    some 0
  | 0xC000 =>
    readAt m.wram (subDW h_addr 0xC000)
  | 0xD000 =>
    readAt m.wram (subDW (addDW m.wramPageStart h_addr) 0xD000)
  | 0xE000 | 0xF000 =>
    if 0xFEA0 ≤ h_addr ∧ h_addr ≤ 0xFEFF then some 0xFF
    else if h_addr < 0xFE00 then Memory.getValue P c m (h_addr - 0xE000)
    else if h_addr < 0xFF00 then readAt m.oam (subDW h_addr 0xFF00)
    else some ( P.getIO m.io (subDW h_addr 0xFF00))
  | _ => some 0xFF
termination_by h_addr
decreasing_by all_goals (have hle := @Nat.and_le_left h_addr 0xF000; omega)

/-! ## `MBC` -/

/-- The method `MBC::getValue`. -/
def MBC.getValue {ι : Type} (P : IoHandler ι) (c : Cartridge) (s : MBC ι)
    (h_addr : Nat) : Option Nat :=
  match h_addr with
  | 0xA000 | 0xB000 =>
    if s.ramEnabled then readAt s.cartRam (addDW (subDW h_addr 0xA000) s.ramPageStart)
    else some 0xFF
  | _ => Memory.getValue P c s.toMemory h_addr

/-- The call `MBC::setValue`: `MBC` declares no `setValue` of its own, so the qualified
call in the controllers runs the inherited `Memory::setValue`. -/
def MBC.setValue {ι : Type} (P : IoHandler ι) (s : MBC ι) (h_addr value : Nat) :
    Option (MBC ι) :=
  (Memory.setValue P s.toMemory h_addr value).map (fun m => { s with toMemory := m })

/-! ## `MBC1` -/

/-- The method `MBC1::mapRom`; the parameter `bank` is a `WORD`. -/
def MBC1.mapRom {ι : Type} (s : MBC1 ι) (bank : Nat) : MBC1 ι :=
  let bank := bank % WORD_SIZE
  let bank :=
    match bank with
    | 0x00 | 0x20 | 0x40 | 0x60 => (bank + 1) % WORD_SIZE
    | _ => bank
  { s with romBank := bank, romPageStart := (ROM_PAGE_LEN * bank) % DWORD_SIZE }

/-- The method `MBC1::setValue`. -/
def MBC1.setValue {ι : Type} (P : IoHandler ι) (c : Cartridge) (s : MBC1 ι)
    (h_addr value : Nat) : Option (MBC1 ι) :=
  match h_addr with
  | 0x0000 | 0x1000 =>
    if c.getRamBanks > 0 then
      some { s with ramEnabled := decide (value &&& 0x0F = 0x0A) }
    else some s
  | 0xA000 | 0xB000 =>
    if s.ramEnabled then
      (writeAt s.cartRam (addDW (subDW h_addr 0xA000) s.ramPageStart) value).map
        (fun b => { s with cartRam := b })
    else some s
  | 0x2000 | 0x3000 =>
    some (s.mapRom ((s.romBank &&& 0x60) ||| (value &&& 0x1F)))
  | 0x4000 | 0x5000 =>
    if !s.modeSelect then
      some { s with ramPageStart := ((value &&& 0x03) * RAM_PAGE_LEN) % DWORD_SIZE }
    else some (s.mapRom ((s.romBank &&& 0x1F) ||| ((value &&& 0x03) <<< 4)))
  | 0x6000 | 0x7000 =>
    if c.getRamBanks = 3 then
      some { s with modeSelect := decide (value &&& 0x01 ≠ 0) }
    else some s
  | _ => (MBC.setValue P s.toMBC h_addr value).map (fun b => { s with toMBC := b })

/-! ## `MBC3` -/

/-- The method `MBC3::setValue`. -/
def MBC3.setValue {ι : Type} (P : IoHandler ι) (c : Cartridge) (s : MBC3 ι)
    (h_addr value : Nat) : Option (MBC3 ι) :=
  match h_addr with
  | 0x0000 | 0x1000 =>
    let s1 : MBC3 ι :=
      if c.getRamBanks ≠ 0 then { s with ramEnabled := decide (value &&& 0x0F = 0x0A) }
      else s
    some { s1 with rtcEnabled := decide (value &&& 0x0F = 0x0A) }
  | 0x2000 | 0x3000 =>
    some { s with romPageStart := (ROM_PAGE_LEN * max (value &&& 0x7F) 1) % DWORD_SIZE }
  | 0x4000 | 0x5000 =>
    if value ≥ 0x08 ∧ value ≤ 0x0C then
      if s.rtcEnabled then some { s with ramBank := -1 } else some s
    else if value ≤ 0x03 then
      let ramBank : Int := (value : Int)
      some { s with
        ramBank := ramBank
        ramPageStart := ((ramBank * (RAM_PAGE_LEN : Int)) % (DWORD_SIZE : Int)).toNat }
    else some s
  | 0xA000 | 0xB000 =>
    (writeAtInt s.rtc (s.ramBank - 0x08) value).map (fun b => { s with rtc := b })
  | _ => (MBC.setValue P s.toMBC h_addr value).map (fun b => { s with toMBC := b })

/-! ## Concrete cartridges and states -/

/-- An I/O handler over a one-point register state. -/
def stubIo : IoHandler Unit := ⟨fun _ _ => 0xFF, fun r _ _ => r⟩

/-- A cartridge whose ROM is all zero, with three RAM banks and a battery. -/
def zeroCart : Cartridge := ⟨fun _ => 0, 3, true, false⟩

/-- Dispatcher state as built for a non-colour cartridge: two working-RAM pages,
one video-RAM page, 160 bytes of sprite memory, all zero. -/
def freshMemory : Memory Unit :=
  { wram := List.replicate 0x2000 0
    vram := List.replicate 0x2000 0
    oam := List.replicate 160 0
    io := ()
    romPageStart := 0x4000
    vramPageStart := 0
    wramPageStart := 0x1000 }

/-- Controller base state as built by `MBC(core, RAM_PAGE_LEN * 4)`: RAM disabled,
RAM offset 0. -/
def freshMBC : MBC Unit :=
  { freshMemory with
    ramPageStart := 0
    ramEnabled := false
    cartRam := List.replicate 0x8000 0
    cartRamSize := 0x8000 }

/-- Controller base state with RAM enabled and 0x42 stored at offset 1. -/
def enabledMBC : MBC Unit :=
  { freshMBC with
    ramEnabled := true
    cartRam := 0 :: 0x42 :: List.replicate 0x7FFE 0 }

/-- An MBC1 with RAM disabled, RAM-banking mode, ROM bank 1 mapped. -/
def freshMBC1 : MBC1 Unit :=
  { freshMBC with modeSelect := false, romBank := 1 }

/-- An MBC1 in extended-ROM-banking mode with ROM bank 1 mapped. -/
def romModeMBC1 : MBC1 Unit :=
  { freshMBC with modeSelect := true, romBank := 1 }

/-- An MBC3 with RAM enabled, RAM bank 0 selected, ROM bank 1 mapped. -/
def ramModeMBC3 : MBC3 Unit :=
  { freshMBC with
    ramEnabled := true
    ramBank := 0
    rtcEnabled := true
    rtc := [0, 0, 0, 0] }

/-- Dispatcher state whose first working-RAM byte is 0x55. -/
def markedMemory : Memory Unit :=
  { freshMemory with wram := 0x55 :: List.replicate 0x1FFF 0 }

/-! ## Construction and invariants -/

/-- The mapped MBC1 bank is in 1–0x7F, has non-zero low five bits, and the ROM
offset is that bank times the page length. -/
def MBC1.BankMapped {ι : Type} (s : MBC1 ι) : Prop :=
  1 ≤ s.romBank ∧ s.romBank ≤ 0x7F ∧ s.romBank &&& 0x1F ≠ 0 ∧
    s.romPageStart = ROM_PAGE_LEN * s.romBank


/-! ## Persistence -/

/-- An input stream as `MBC::load` sees it: `good` is the test `if (input)`,
`bytes` are the bytes still to be read. -/
structure InStream where
  good : Bool
  bytes : List Nat

/-- The method `MBC::save`.  The output stream is the list of bytes written so
far; the result is the stream after the call and the messages passed to
`cpush_error`.  `none` is a read beyond the end of `cartRam`. -/
def MBC.save {ι : Type} (c : Cartridge) (s : MBC ι) (output : List Nat) :
    Option (List Nat × List String) :=
  if !c.hasBattery then some (output, ["no battery"])
  else if s.cartRamSize ≤ s.cartRam.length then
    some (output ++ s.cartRam.take s.cartRamSize, [])
  else none

/-- The method `MBC::load`.  The result is the controller after the call and the
messages passed to `cpush_error`; `input.read` stores the bytes it gets, as many as
`cartRamSize`, over the zero-filled buffer and `gcount` is their number.  `none` is
a write beyond the end of `cartRam`. -/
def MBC.load {ι : Type} (c : Cartridge) (s : MBC ι) (input : InStream) :
    Option (MBC ι × List String) :=
  if !c.hasBattery then some (s, ["no battery"])
  else if input.good then
    if s.cartRamSize ≤ s.cartRam.length then
      let zeroed := List.replicate s.cartRamSize 0 ++ s.cartRam.drop s.cartRamSize
      let got := input.bytes.take s.cartRamSize
      let raw := got ++ zeroed.drop got.length
      some ({ s with cartRam := raw },
        if got.length ≠ s.cartRamSize then ["cart data invalid"] else [])
    else none
  else some (s, ["Premature end of input stream"])

/-! ## Bounded nesting of the dispatcher calls -/

/-- The method `Memory::setValue` run with at most `fuel` nested calls of itself,
the outermost included; `none` when a further call would be needed. -/
def Memory.setValueFuel {ι : Type} (P : IoHandler ι) (m : Memory ι) (fuel : Nat)
    (h_addr value : Nat) : Option (Option (Memory ι)) :=
  match fuel with
  | 0 => none
  | fuel + 1 =>
    match h_addr &&& 0xF000 with
    | 0x0000 | 0x1000 | 0x2000 | 0x3000 | 0x4000 | 0x5000 | 0x6000 | 0x7000 =>
      some (some m)
    | 0x8000 | 0x9000 =>
      some ((writeAt m.vram (subDW (addDW m.vramPageStart h_addr) 0x8000) value).map
        (fun b => { m with vram := b }))
    | 0xA000 | 0xB000 =>
      some (some m)
    | 0xC000 =>
      some ((writeAt m.wram (subDW h_addr 0xC000) value).map (fun b => { m with wram := b }))
    | 0xD000 =>
      some ((writeAt m.wram (subDW (addDW m.wramPageStart h_addr) 0xD000) value).map
        (fun b => { m with wram := b }))
    | 0xE000 | 0xF000 =>
      if 0xFEA0 ≤ h_addr ∧ h_addr ≤ 0xFEFF then some (some m)
      else if h_addr < 0xFE00 then Memory.setValueFuel P m fuel (h_addr - 0xE000) value
      else if h_addr < 0xFF00 then
        some ((writeAt m.oam (subDW h_addr 0xFE00) value).map (fun b => { m with oam := b }))
      else some (some { m with io := P.setIO m.io (subDW h_addr 0xFF00) value })
    | _ => some (some m)

/-- The method `Memory::getValue` run with at most `fuel` nested calls of itself,
the outermost included; `none` when a further call would be needed. -/
def Memory.getValueFuel {ι : Type} (P : IoHandler ι) (c : Cartridge) (m : Memory ι)
    (fuel : Nat) (h_addr : Nat) : Option (Option Nat) :=
  match fuel with
  | 0 => none
  | fuel + 1 =>
    match h_addr &&& 0xF000 with
    | 0x0000 | 0x1000 | 0x2000 | 0x3000 =>
      some (some (c.romdata h_addr))
    | 0x4000 | 0x5000 | 0x6000 | 0x7000 =>
      some (some (c.romdata (subDW (addDW m.romPageStart h_addr) 0x4000)))
    | 0x8000 | 0x9000 =>
      some (readAt m.vram (subDW (addDW m.vramPageStart h_addr) 0x8000))
    | 0xA000 | 0xB000 =>
      some (some 0)
    | 0xC000 =>
      some (readAt m.wram (subDW h_addr 0xC000))
    | 0xD000 =>
      some (readAt m.wram (subDW (addDW m.wramPageStart h_addr) 0xD000))
    | 0xE000 | 0xF000 =>
      if 0xFEA0 ≤ h_addr ∧ h_addr ≤ 0xFEFF then some (some 0xFF)
      else if h_addr < 0xFE00 then Memory.getValueFuel P c m fuel (h_addr - 0xE000)
      else if h_addr < 0xFF00 then some (readAt m.oam (subDW h_addr 0xFF00))
      else some (some ( P.getIO m.io (subDW h_addr 0xFF00)))
    | _ => some (some 0xFF)

/-- A battery-backed controller holding the bytes 1, 2, 3 in a three-byte RAM. -/
def savedMBC : MBC Unit :=
  { freshMemory with
    ramPageStart := 0
    ramEnabled := false
    cartRam := [1, 2, 3]
    cartRamSize := 3 }

/-- An MBC1 over the three-byte RAM, with RAM enabled. -/
def enabledMBC1 : MBC1 Unit :=
  { savedMBC with ramEnabled := true, modeSelect := false, romBank := 1 }

/-- The same controller with other bytes in its RAM. -/
def staleMBC : MBC Unit :=
  { savedMBC with cartRam := [9, 9, 9] }


/-! ## Buffers that cover their mapped windows -/

/-- The mask 0xF000 keeps bits 12 to 15. -/
theorem and_F000_shift (a : Nat) : a &&& 0xF000 = ((a % 2 ^ 16) >>> 12) <<< 12 := by
  have hM : (0xF000 : Nat) = (2 ^ 4 - 1) <<< 12 := by decide
  rw [hM]
  apply Nat.eq_of_testBit_eq
  intro i
  simp only [Nat.testBit_and, Nat.testBit_shiftLeft, Nat.testBit_shiftRight,
    Nat.testBit_two_pow_sub_one, Nat.testBit_mod_two_pow]
  by_cases h : 12 ≤ i
  · have e : 12 + (i - 12) = i := by omega
    simp only [e, h, decide_True, Bool.true_and, ge_iff_le]
    by_cases h2 : i < 16
    · have : i - 12 < 4 := by omega
      simp [h2, this]
    · have : ¬ (i - 12 < 4) := by omega
      simp [h2, this]
  · simp [h]

/-- The switch selector `addr & 0xF000` is the fourth hex digit of the address. -/
theorem and_F000 (a : Nat) : a &&& 0xF000 = a / 0x1000 % 16 * 0x1000 := by
  rw [and_F000_shift, Nat.shiftLeft_eq, Nat.shiftRight_eq_div_pow]
  omega

/-- The mask 0x0F keeps the low nibble. -/
theorem and_0F (v : Nat) : v &&& 0x0F = v % 16 := Nat.and_pow_two_sub_one_eq_mod v 4

/-- The mask 0x1F keeps the low five bits. -/
theorem and_1F (v : Nat) : v &&& 0x1F = v % 32 := Nat.and_pow_two_sub_one_eq_mod v 5

/-- The mask 0x7F keeps the low seven bits. -/
theorem and_7F (v : Nat) : v &&& 0x7F = v % 128 := Nat.and_pow_two_sub_one_eq_mod v 7

/-- The mask 0x03 keeps the low two bits. -/
theorem and_03 (v : Nat) : v &&& 0x03 = v % 4 := Nat.and_pow_two_sub_one_eq_mod v 2

/-! ## The base dispatcher on the ranges it does not store -/

/-- The write `Memory::setValue` ignores writes below 0x8000. -/
theorem Memory_setValue_rom {ι : Type} (P : IoHandler ι) (m : Memory ι) (a v : Nat)
    (ha : a < 0x8000) : Memory.setValue P m a v = some m := by
  rw [Memory.setValue]
  have hk := and_F000 a
  split <;> first | omega | rfl

/-- The write `Memory::setValue` ignores writes to 0xA000–0xBFFF. -/
theorem Memory_setValue_extRam {ι : Type} (P : IoHandler ι) (m : Memory ι) (a v : Nat)
    (ha : 0xA000 ≤ a ∧ a ≤ 0xBFFF) : Memory.setValue P m a v = some m := by
  rw [Memory.setValue]
  have hk := and_F000 a
  split <;> first | omega | rfl

/-- The read `Memory::getValue` returns the fixed-bank ROM byte below 0x4000. -/
theorem Memory_getValue_rom0 {ι : Type} (P : IoHandler ι) (c : Cartridge) (m : Memory ι)
    (a : Nat) (ha : a < 0x4000) : Memory.getValue P c m a = some (c.romdata a) := by
  rw [Memory.getValue]
  have hk := and_F000 a
  split <;> first | omega | rfl | (simp only [imp_false] at *; omega)

/-- The read `Memory::getValue` returns 0 on 0xA000–0xBFFF. -/
theorem Memory_getValue_extRam {ι : Type} (P : IoHandler ι) (c : Cartridge) (m : Memory ι)
    (a : Nat) (ha : 0xA000 ≤ a ∧ a ≤ 0xBFFF) : Memory.getValue P c m a = some 0 := by
  rw [Memory.getValue]
  have hk := and_F000 a
  split <;> first | omega | rfl | (simp only [imp_false] at *; omega)

/-- The read `Memory::getValue` redirects 0xE000–0xFDFF to the address less 0xE000. -/
theorem Memory_getValue_echo {ι : Type} (P : IoHandler ι) (c : Cartridge) (m : Memory ι)
    (a : Nat) (ha : 0xE000 ≤ a ∧ a ≤ 0xFDFF) :
    Memory.getValue P c m a = Memory.getValue P c m (a - 0xE000) := by
  have hk := and_F000 a
  have h1 : ¬ (0xFEA0 ≤ a ∧ a ≤ 0xFEFF) := by omega
  have h2 : a < 0xFE00 := by omega
  rw [Memory.getValue]
  split <;> first | omega | (simp only [h1, h2, if_true, if_false]) |
    (simp only [imp_false] at *; omega)

/-- The read `Memory::getValue` reads working-RAM bank 0 on 0xC000–0xCFFF. -/
theorem Memory_getValue_wram0 {ι : Type} (P : IoHandler ι) (c : Cartridge) (m : Memory ι)
    (a : Nat) (ha : 0xC000 ≤ a ∧ a ≤ 0xCFFF) :
    Memory.getValue P c m a = readAt m.wram (subDW a 0xC000) := by
  rw [Memory.getValue]
  have hk := and_F000 a
  split <;> first | omega | rfl | (simp only [imp_false] at *; omega)

/-! ## The controllers off their switch labels -/

/-- Off the two labels 0xA000 and 0xB000, `MBC::getValue` is `Memory::getValue`. -/
theorem MBC_getValue_off_label {ι : Type} (P : IoHandler ι) (c : Cartridge) (s : MBC ι)
    (a : Nat) (h1 : a ≠ 0xA000) (h2 : a ≠ 0xB000) :
    MBC.getValue P c s a = Memory.getValue P c s.toMemory a := by
  unfold MBC.getValue
  split <;> first | omega | rfl

/-- The inherited write ignores addresses below 0x8000. -/
theorem MBC_setValue_rom {ι : Type} (P : IoHandler ι) (s : MBC ι) (a v : Nat)
    (ha : a < 0x8000) : MBC.setValue P s a v = some s := by
  unfold MBC.setValue
  rw [Memory_setValue_rom P s.toMemory a v ha]
  rfl

/-- The inherited write ignores addresses in 0xA000–0xBFFF. -/
theorem MBC_setValue_extRam {ι : Type} (P : IoHandler ι) (s : MBC ι) (a v : Nat)
    (ha : 0xA000 ≤ a ∧ a ≤ 0xBFFF) : MBC.setValue P s a v = some s := by
  unfold MBC.setValue
  rw [Memory_setValue_extRam P s.toMemory a v ha]
  rfl

/-- Off its ten labels, `MBC1::setValue` is the inherited write. -/
theorem MBC1_setValue_off_label {ι : Type} (P : IoHandler ι) (c : Cartridge) (s : MBC1 ι)
    (a v : Nat) (h : a % 0x1000 ≠ 0) :
    MBC1.setValue P c s a v =
      (MBC.setValue P s.toMBC a v).map (fun b => { s with toMBC := b }) := by
  unfold MBC1.setValue
  split <;> first | omega | rfl

/-- Off its eight labels, `MBC3::setValue` is the inherited write. -/
theorem MBC3_setValue_off_label {ι : Type} (P : IoHandler ι) (c : Cartridge) (s : MBC3 ι)
    (a v : Nat) (h : a % 0x1000 ≠ 0) :
    MBC3.setValue P c s a v =
      (MBC.setValue P s.toMBC a v).map (fun b => { s with toMBC := b }) := by
  unfold MBC3.setValue
  split <;> first | omega | rfl

/-! ## Claims -/

/-- C1 (code at the failing input): `MBC::getValue` switches on the unmasked
address, so 0xA001 is not one of its labels and the read falls through to
`Memory::getValue`, which returns 0: with RAM disabled the read is 0 and not
0xFF, and with RAM enabled and 0x42 stored at `ramPageStart + 1` the read is 0
and not the stored byte. -/
theorem MBC_getValue_A001_reads_zero :
    freshMBC.ramEnabled = false ∧
    MBC.getValue stubIo zeroCart freshMBC 0xA001 = some 0 ∧
    enabledMBC.ramEnabled = true ∧
    readAt enabledMBC.cartRam (enabledMBC.ramPageStart + 0xA001 - 0xA000) = some 0x42 ∧
    MBC.getValue stubIo zeroCart enabledMBC 0xA001 = some 0 := by
  refine ⟨rfl, ?_, rfl, ?_, ?_⟩
  · rw [MBC_getValue_off_label _ _ _ _ (by decide) (by decide)]
    exact Memory_getValue_extRam _ _ _ _ (by decide)
  · show (0 :: 0x42 :: List.replicate 0x7FFE 0)[0 + 0xA001 - 0xA000]? = some 0x42
    simp only [List.getElem?_cons_succ, List.getElem?_cons_zero]
  · rw [MBC_getValue_off_label _ _ _ _ (by decide) (by decide)]
    exact Memory_getValue_extRam _ _ _ _ (by decide)

/-- C2 (code at the failing input): on a cartridge that declares RAM banks, with RAM
disabled, the enabling write `write(0x0001, 0x0A)` falls through to the base
dispatcher and changes nothing, the write `write(0xA000, 0x42)` is then
discarded, and `read(0xA000)` returns 0xFF instead of 0x42. -/
theorem MBC1_enable_at_0001_is_ignored :
    0 < zeroCart.getRamBanks ∧ freshMBC1.ramEnabled = false ∧
    MBC1.setValue stubIo zeroCart freshMBC1 0x0001 0x0A = some freshMBC1 ∧
    MBC1.setValue stubIo zeroCart freshMBC1 0xA000 0x42 = some freshMBC1 ∧
    MBC.getValue stubIo zeroCart freshMBC1.toMBC 0xA000 = some 0xFF := by
  refine ⟨by decide, rfl, ?_, rfl, rfl⟩
  rw [MBC1_setValue_off_label _ _ _ _ _ (by decide), MBC_setValue_rom _ _ _ _ (by decide)]
  rfl

/-- C3: `MBC1::mapRom` maps bank `b + 1` when `b` is 0x00, 0x20, 0x40 or 0x60
and bank `b` itself otherwise; in both cases `romBank` is the mapped bank and
`romPageStart` is `ROM_PAGE_LEN` times the mapped bank. -/
theorem MBC1_mapRom_aliasing {ι : Type} (s : MBC1 ι) (b : Nat) (hb : b < WORD_SIZE) :
    ((b = 0x00 ∨ b = 0x20 ∨ b = 0x40 ∨ b = 0x60) →
      (s.mapRom b).romBank = b + 1 ∧
      (s.mapRom b).romPageStart = ROM_PAGE_LEN * (b + 1)) ∧
    (¬ (b = 0x00 ∨ b = 0x20 ∨ b = 0x40 ∨ b = 0x60) →
      (s.mapRom b).romBank = b ∧
      (s.mapRom b).romPageStart = ROM_PAGE_LEN * b) := by
  unfold MBC1.mapRom
  rw [Nat.mod_eq_of_lt hb]
  unfold WORD_SIZE at hb
  constructor
  · rintro (h | h | h | h) <;> subst h <;> exact ⟨rfl, rfl⟩
  · intro h
    dsimp only
    constructor
    · split <;> omega
    · split <;> first | omega | (unfold ROM_PAGE_LEN DWORD_SIZE; omega)

/-- C3 at bank 0x20: the mapped bank is 0x21. -/
theorem MBC1_mapRom_aliasing_witness :
    (freshMBC1.mapRom 0x20).romBank = 0x21 ∧
    (freshMBC1.mapRom 0x20).romPageStart = ROM_PAGE_LEN * 0x21 :=
  (MBC1_mapRom_aliasing freshMBC1 0x20 (by decide)).1 (by decide)

/-- C4 (code at the failing input): in extended-ROM-banking mode with ROM bank 1
mapped, `write(0x4000, 1)` shifts the two value bits by 4 and not by 5, so the
mapped bank is 0x11 (offset `ROM_PAGE_LEN * 0x11`) where the claim's formula
`(rom_bank & 0x1F) | ((v & 0x03) << 5)` gives 0x21. -/
theorem MBC1_upper_bits_shifted_by_four :
    romModeMBC1.modeSelect = true ∧ romModeMBC1.romBank = 1 ∧
    (MBC1.setValue stubIo zeroCart romModeMBC1 0x4000 1).map
        (fun s => (s.romBank, s.romPageStart)) = some (0x11, ROM_PAGE_LEN * 0x11) ∧
    ((romModeMBC1.romBank &&& 0x1F) ||| ((1 &&& 0x03) <<< 5)) = 0x21 := by
  refine ⟨rfl, rfl, ?_, by decide⟩
  rfl

/-- C5: in RAM-banking mode a write to 0x4000–0x5FFF returns a state that
differs from the old one in `ramPageStart` at most. -/
theorem MBC1_ram_banking_write_frame {ι : Type} (P : IoHandler ι) (c : Cartridge)
    (s : MBC1 ι) (a v : Nat) (hmode : s.modeSelect = false)
    (ha : 0x4000 ≤ a ∧ a ≤ 0x5FFF) :
    ∃ r, MBC1.setValue P c s a v = some { s with ramPageStart := r } := by
  by_cases hl : a % 0x1000 = 0
  · refine ⟨((v &&& 0x03) * RAM_PAGE_LEN) % DWORD_SIZE, ?_⟩
    have h45 : a = 0x4000 ∨ a = 0x5000 := by omega
    rcases h45 with h | h <;> subst h <;> unfold MBC1.setValue <;> simp only [hmode] <;> rfl
  · refine ⟨s.ramPageStart, ?_⟩
    rw [MBC1_setValue_off_label P c s a v hl, MBC_setValue_rom P s.toMBC a v (by omega)]
    rfl

/-- C5 at address 0x4000, value 2: only the RAM offset is replaced. -/
theorem MBC1_ram_banking_write_frame_witness :
    ∃ r, MBC1.setValue stubIo zeroCart freshMBC1 0x4000 2 =
      some { freshMBC1 with ramPageStart := r } :=
  MBC1_ram_banking_write_frame stubIo zeroCart freshMBC1 0x4000 2 rfl (by decide)

/-- C6 (code at the failing input): the address 0x2001 is not a label of
`MBC3::setValue`, so `write(0x2001, 0x05)` falls through to the base dispatcher
and changes nothing: the ROM offset stays at bank 1 where the claim requires
`ROM_PAGE_LEN * max(0x05 & 0x7F, 1)`, bank 5. -/
theorem MBC3_bank_select_at_2001_is_ignored :
    ramModeMBC3.romPageStart = ROM_PAGE_LEN * 1 ∧
    (MBC3.setValue stubIo zeroCart ramModeMBC3 0x2001 0x05).map
        (fun s => s.romPageStart) = some (ROM_PAGE_LEN * 1) ∧
    ROM_PAGE_LEN * max (0x05 &&& 0x7F) 1 = ROM_PAGE_LEN * 5 := by
  refine ⟨rfl, ?_, by decide⟩
  rw [MBC3_setValue_off_label _ _ _ _ _ (by decide), MBC_setValue_rom _ _ _ _ (by decide)]
  rfl

/-- C7 (code at the failing input): with RAM enabled and RAM bank 0 selected,
`write(0xA000, 0x42)` takes the register-file branch and indexes `rtc` at
`0 - 8`, outside the four-byte file; nothing is stored in cartridge RAM.  At
0xA001 the write falls through to the base dispatcher, changes nothing, and the
following read returns 0. -/
theorem MBC3_ram_write_goes_to_rtc :
    ramModeMBC3.ramEnabled = true ∧ ramModeMBC3.ramBank = 0 ∧
    MBC3.setValue stubIo zeroCart ramModeMBC3 0xA000 0x42 = none ∧
    MBC3.setValue stubIo zeroCart ramModeMBC3 0xA001 0x42 = some ramModeMBC3 ∧
    MBC.getValue stubIo zeroCart ramModeMBC3.toMBC 0xA001 = some 0 := by
  refine ⟨rfl, rfl, rfl, ?_, ?_⟩
  · rw [MBC3_setValue_off_label _ _ _ _ _ (by decide),
      MBC_setValue_extRam _ _ _ _ (by decide)]
    rfl
  · rw [MBC_getValue_off_label _ _ _ _ (by decide) (by decide)]
    exact Memory_getValue_extRam _ _ _ _ (by decide)

/-- C8: for every address `a` in 0xE000–0xFDFF, `Memory::getValue(a)` and
`Memory::getValue(a - 0xE000)` both return, and return the same byte. -/
theorem Memory_getValue_echo_eq {ι : Type} (P : IoHandler ι) (c : Cartridge)
    (m : Memory ι) (a : Nat) (ha : 0xE000 ≤ a ∧ a ≤ 0xFDFF) :
    ∃ b, Memory.getValue P c m a = some b ∧
      Memory.getValue P c m (a - 0xE000) = some b := by
  refine ⟨c.romdata (a - 0xE000), ?_, Memory_getValue_rom0 P c m _ (by omega)⟩
  rw [Memory_getValue_echo P c m a ha]
  exact Memory_getValue_rom0 P c m _ (by omega)

/-- C8 at address 0xE123. -/
theorem Memory_getValue_echo_eq_witness :
    ∃ b, Memory.getValue stubIo zeroCart freshMemory 0xE123 = some b ∧
      Memory.getValue stubIo zeroCart freshMemory (0xE123 - 0xE000) = some b :=
  Memory_getValue_echo_eq stubIo zeroCart freshMemory 0xE123 (by decide)

/-- C9 (code at the failing input): with 0x55 in the first working-RAM byte and
an all-zero ROM, `read(0xE000)` is redirected to address 0x0000 and returns the
ROM byte 0, while `read(0xC000)` returns the working-RAM byte 0x55. -/
theorem Memory_echo_reads_rom_not_wram :
    Memory.getValue stubIo zeroCart markedMemory 0xE000 = some 0 ∧
    Memory.getValue stubIo zeroCart markedMemory (0xC000 + (0xE000 - 0xE000)) = some 0x55 := by
  constructor
  · rw [Memory_getValue_echo _ _ _ _ (by decide)]
    exact Memory_getValue_rom0 _ _ _ _ (by decide)
  · rw [Memory_getValue_wram0 _ _ _ _ (by decide)]
    have h0 : subDW (0xC000 + (0xE000 - 0xE000)) 0xC000 = 0 := by decide
    rw [h0]
    show (0x55 :: List.replicate 0x1FFF 0)[0]? = some 0x55
    simp only [List.getElem?_cons_zero]

/-- C10: for every address in 0xFEA0–0xFEFF, `Memory::getValue` returns 0xFF and
`Memory::setValue` returns the state it was given. -/
theorem Memory_unusable_region {ι : Type} (P : IoHandler ι) (c : Cartridge)
    (m : Memory ι) (a : Nat) (ha : 0xFEA0 ≤ a ∧ a ≤ 0xFEFF) :
    Memory.getValue P c m a = some 0xFF ∧
    ∀ v, Memory.setValue P m a v = some m := by
  have hk := and_F000 a
  constructor
  · rw [Memory.getValue]
    split <;> first | omega | rfl | (simp only [ha, and_self, if_true])
  · intro v
    rw [Memory.setValue]
    split <;> first | omega | rfl | (simp only [ha, and_self, if_true])

/-- C10 at address 0xFEA0. -/
theorem Memory_unusable_region_witness :
    Memory.getValue stubIo zeroCart markedMemory 0xFEA0 = some 0xFF ∧
    ∀ v, Memory.setValue stubIo markedMemory 0xFEA0 v = some markedMemory :=
  Memory_unusable_region stubIo zeroCart markedMemory 0xFEA0 (by decide)

/-! ## Sprite memory, echo writes and fall-through -/

/-- The read `Memory::getValue` indexes sprite memory at the address less 0xFF00
on 0xFE00–0xFE9F. -/
theorem Memory_getValue_oam {ι : Type} (P : IoHandler ι) (c : Cartridge) (m : Memory ι)
    (a : Nat) (ha : 0xFE00 ≤ a ∧ a ≤ 0xFE9F) :
    Memory.getValue P c m a = readAt m.oam (subDW a 0xFF00) := by
  have hk := and_F000 a
  have h1 : ¬ (0xFEA0 ≤ a ∧ a ≤ 0xFEFF) := by omega
  have h2 : ¬ a < 0xFE00 := by omega
  have h3 : a < 0xFF00 := by omega
  rw [Memory.getValue]
  split <;> first | omega | (simp only [h1, h2, h3, if_true, if_false]) |
    (simp only [imp_false] at *; omega)

/-- The write `Memory::setValue` indexes sprite memory at the address less 0xFE00
on 0xFE00–0xFE9F. -/
theorem Memory_setValue_oam {ι : Type} (P : IoHandler ι) (m : Memory ι)
    (a v : Nat) (ha : 0xFE00 ≤ a ∧ a ≤ 0xFE9F) :
    Memory.setValue P m a v =
      (writeAt m.oam (subDW a 0xFE00) v).map (fun b => { m with oam := b }) := by
  have hk := and_F000 a
  have h1 : ¬ (0xFEA0 ≤ a ∧ a ≤ 0xFEFF) := by omega
  have h2 : ¬ a < 0xFE00 := by omega
  have h3 : a < 0xFF00 := by omega
  rw [Memory.setValue]
  split <;> first | omega | (simp only [h1, h2, h3, if_true, if_false]) |
    (simp only [imp_false] at *; omega)

/-- The write `Memory::setValue` redirects 0xE000–0xFDFF to the address less
0xE000. -/
theorem Memory_setValue_echo {ι : Type} (P : IoHandler ι) (m : Memory ι)
    (a v : Nat) (ha : 0xE000 ≤ a ∧ a ≤ 0xFDFF) :
    Memory.setValue P m a v = Memory.setValue P m (a - 0xE000) v := by
  have hk := and_F000 a
  have h1 : ¬ (0xFEA0 ≤ a ∧ a ≤ 0xFEFF) := by omega
  have h2 : a < 0xFE00 := by omega
  rw [Memory.setValue]
  split <;> first | omega | (simp only [h1, h2, if_true, if_false]) |
    (simp only [imp_false] at *; omega)

/-- C11 (code at the failing input): on a dispatcher with a 160-byte sprite
buffer, `write(0xFE00, 0x42)` stores 0x42 at sprite index 0, but `read(0xFE00)`
indexes the buffer at `0xFE00 - 0xFF00`, which wraps to 0xFFFFFF00 and lies
outside the buffer: the read does not return the byte written. -/
theorem Memory_oam_read_uses_FF00 :
    (Memory.setValue stubIo freshMemory 0xFE00 0x42).map (fun m => readAt m.oam 0)
      = some (some 0x42) ∧
    subDW 0xFE00 0xFF00 = 0xFFFFFF00 ∧
    (Memory.setValue stubIo freshMemory 0xFE00 0x42).bind
      (fun m => Memory.getValue stubIo zeroCart m 0xFE00) = none := by
  have h0 : subDW 0xFE00 0xFE00 = 0 := by decide
  have hw : Memory.setValue stubIo freshMemory 0xFE00 0x42 =
      some { freshMemory with oam := (List.replicate 160 0).set 0 0x42 } := by
    rw [Memory_setValue_oam _ _ _ _ (by decide), h0]
    show (writeAt (List.replicate 160 0) 0 0x42).map _ = _
    unfold writeAt
    rw [if_pos (by simp only [List.length_replicate]; decide)]
    rfl
  refine ⟨?_, by decide, ?_⟩
  · rw [hw]
    show some (((List.replicate 160 0).set 0 0x42)[0]?) = some (some 0x42)
    rw [List.getElem?_set_self (by simp only [List.length_replicate]; decide)]
  · rw [hw]
    show Memory.getValue stubIo zeroCart _ 0xFE00 = none
    rw [Memory_getValue_oam _ _ _ _ (by decide)]
    show ((List.replicate 160 0).set 0 0x42)[subDW 0xFE00 0xFF00]? = none
    rw [List.getElem?_eq_none_iff]
    simp only [List.length_set, List.length_replicate]
    decide

/-- C19: for every address in 0xE000–0xFDFF, `Memory::setValue` returns the state
it was given: the redirected address is below 0x1E00, where writes are ignored. -/
theorem Memory_echo_write_dropped {ι : Type} (P : IoHandler ι) (m : Memory ι)
    (a v : Nat) (ha : 0xE000 ≤ a ∧ a ≤ 0xFDFF) :
    a - 0xE000 ≤ 0x1DFF ∧ Memory.setValue P m a v = some m := by
  refine ⟨by omega, ?_⟩
  rw [Memory_setValue_echo P m a v ha]
  exact Memory_setValue_rom P m _ v (by omega)

/-- C19 at address 0xE000 on a state whose first working-RAM byte is 0x55. -/
theorem Memory_echo_write_dropped_witness :
    0xE000 - 0xE000 ≤ 0x1DFF ∧
    Memory.setValue stubIo markedMemory 0xE000 0x99 = some markedMemory :=
  Memory_echo_write_dropped stubIo markedMemory 0xE000 0x99 (by decide)

/-- A completed `Memory::setValue` leaves the three page offsets as they were. -/
theorem Memory_setValue_offsets {ι : Type} (P : IoHandler ι) (m m' : Memory ι)
    (a v : Nat) (h : Memory.setValue P m a v = some m') :
    m'.romPageStart = m.romPageStart ∧ m'.vramPageStart = m.vramPageStart ∧
      m'.wramPageStart = m.wramPageStart := by
  by_cases hecho : 0xE000 ≤ a ∧ a ≤ 0xFDFF
  · rw [Memory_setValue_echo P m a v hecho,
      Memory_setValue_rom P m _ v (by omega)] at h
    cases h
    exact ⟨rfl, rfl, rfl⟩
  · have hk := and_F000 a
    rw [Memory.setValue] at h
    split at h
    all_goals first
      | (cases h; exact ⟨rfl, rfl, rfl⟩)
      | (obtain ⟨b, -, hb⟩ := Option.map_eq_some'.mp h; subst hb; exact ⟨rfl, rfl, rfl⟩)
      | skip
    all_goals
      split at h
      · cases h; exact ⟨rfl, rfl, rfl⟩
      · split at h
        · omega
        · split at h
          · obtain ⟨b, -, hb⟩ := Option.map_eq_some'.mp h
            subst hb
            exact ⟨rfl, rfl, rfl⟩
          · cases h
            exact ⟨rfl, rfl, rfl⟩

/-- The inherited write, when it completes, replaces the dispatcher part only
and keeps its page offsets. -/
theorem MBC_setValue_result {ι : Type} (P : IoHandler ι) (s s' : MBC ι) (a v : Nat)
    (h : MBC.setValue P s a v = some s') :
    ∃ m', s' = { s with toMemory := m' } ∧ m'.romPageStart = s.romPageStart := by
  unfold MBC.setValue at h
  obtain ⟨m', hm', hs'⟩ := Option.map_eq_some'.mp h
  exact ⟨m', hs'.symm, (Memory_setValue_offsets P _ _ a v hm').1⟩

/-- On 0x8000–0x9FFF and 0xC000–0xFFFF, `MBC1::setValue` is `Memory::setValue` on the
dispatcher part. -/
theorem MBC1_setValue_fall_through {ι : Type} (P : IoHandler ι) (c : Cartridge)
    (s : MBC1 ι) (a v : Nat)
    (ha : (0x8000 ≤ a ∧ a ≤ 0x9FFF) ∨ (0xC000 ≤ a ∧ a ≤ 0xFFFF)) :
    MBC1.setValue P c s a v =
      (Memory.setValue P s.toMemory a v).map (fun m => { s with toMemory := m }) := by
  unfold MBC1.setValue
  split
  all_goals try omega
  unfold MBC.setValue
  rw [Option.map_map]
  rfl

/-- On 0x8000–0x9FFF and 0xC000–0xFFFF, `MBC3::setValue` is `Memory::setValue` on the
dispatcher part. -/
theorem MBC3_setValue_fall_through {ι : Type} (P : IoHandler ι) (c : Cartridge)
    (s : MBC3 ι) (a v : Nat)
    (ha : (0x8000 ≤ a ∧ a ≤ 0x9FFF) ∨ (0xC000 ≤ a ∧ a ≤ 0xFFFF)) :
    MBC3.setValue P c s a v =
      (Memory.setValue P s.toMemory a v).map (fun m => { s with toMemory := m }) := by
  unfold MBC3.setValue
  split
  all_goals try omega
  unfold MBC.setValue
  rw [Option.map_map]
  rfl

/-- C14: on 0x8000–0x9FFF and 0xC000–0xFFFF the MBC1 and MBC3 writes are the
base dispatcher write on the dispatcher part, with every controller field kept
(and they fail exactly when the base write does); outside 0xA000–0xBFFF the
controller read is the base dispatcher read. -/
theorem controllers_fall_through {ι : Type} (P : IoHandler ι) (c : Cartridge)
    (s1 : MBC1 ι) (s3 : MBC3 ι) (a v : Nat) :
    ((0x8000 ≤ a ∧ a ≤ 0x9FFF) ∨ (0xC000 ≤ a ∧ a ≤ 0xFFFF) →
      MBC1.setValue P c s1 a v =
        (Memory.setValue P s1.toMemory a v).map (fun m => { s1 with toMemory := m }) ∧
      MBC3.setValue P c s3 a v =
        (Memory.setValue P s3.toMemory a v).map (fun m => { s3 with toMemory := m })) ∧
    (¬ (0xA000 ≤ a ∧ a ≤ 0xBFFF) →
      MBC.getValue P c s1.toMBC a = Memory.getValue P c s1.toMemory a ∧
      MBC.getValue P c s3.toMBC a = Memory.getValue P c s3.toMemory a) := by
  constructor
  · intro ha
    exact ⟨MBC1_setValue_fall_through P c s1 a v ha, MBC3_setValue_fall_through P c s3 a v ha⟩
  · intro ha
    exact ⟨MBC_getValue_off_label P c _ a (by omega) (by omega),
      MBC_getValue_off_label P c _ a (by omega) (by omega)⟩

/-- C14 at address 0xC000 (write) and 0xC000 (read). -/
theorem controllers_fall_through_witness :
    (MBC1.setValue stubIo zeroCart freshMBC1 0xC000 0x42 =
        (Memory.setValue stubIo freshMBC1.toMemory 0xC000 0x42).map
          (fun m => { freshMBC1 with toMemory := m }) ∧
      MBC3.setValue stubIo zeroCart ramModeMBC3 0xC000 0x42 =
        (Memory.setValue stubIo ramModeMBC3.toMemory 0xC000 0x42).map
          (fun m => { ramModeMBC3 with toMemory := m })) ∧
    (MBC.getValue stubIo zeroCart freshMBC1.toMBC 0xC000 =
        Memory.getValue stubIo zeroCart freshMBC1.toMemory 0xC000 ∧
      MBC.getValue stubIo zeroCart ramModeMBC3.toMBC 0xC000 =
        Memory.getValue stubIo zeroCart ramModeMBC3.toMemory 0xC000) :=
  ⟨(controllers_fall_through stubIo zeroCart freshMBC1 ramModeMBC3 0xC000 0x42).1
      (by decide),
    (controllers_fall_through stubIo zeroCart freshMBC1 ramModeMBC3 0xC000 0x42).2
      (by decide)⟩

/-- A completed `MBC1::setValue` changes cartridge RAM only on the labels 0xA000
and 0xB000 with RAM enabled. -/
theorem MBC1_setValue_cartRam {ι : Type} (P : IoHandler ι) (c : Cartridge)
    (s s' : MBC1 ι) (a v : Nat) (h : MBC1.setValue P c s a v = some s') :
    s'.cartRam = s.cartRam ∨ ((a = 0xA000 ∨ a = 0xB000) ∧ s.ramEnabled = true) := by
  unfold MBC1.setValue at h
  split at h
  case h_3 | h_4 =>
    by_cases he : s.ramEnabled = true
    · right; exact ⟨by omega, he⟩
    · left
      rw [if_neg he] at h
      cases h; rfl
  case h_11 =>
    left
    obtain ⟨b, hb, hs'⟩ := Option.map_eq_some'.mp h
    obtain ⟨m', hm', -⟩ := MBC_setValue_result P _ _ a v hb
    subst hs'; subst hm'; rfl
  all_goals
    left
    first
      | (cases h; rfl)
      | (split at h <;> cases h <;> rfl)

/-- C15: with RAM disabled, an MBC1 write to 0xA000–0xBFFF returns the state it
was given, and a completed MBC1 write to any address leaves cartridge RAM as it
was; in any state, a completed write that changes cartridge RAM is a write into
0xA000–0xBFFF made with RAM enabled. -/
theorem MBC1_disabled_ram_frame {ι : Type} (P : IoHandler ι) (c : Cartridge)
    (s : MBC1 ι) (a v : Nat) :
    (s.ramEnabled = false →
      (0xA000 ≤ a ∧ a ≤ 0xBFFF → MBC1.setValue P c s a v = some s) ∧
      ∀ s', MBC1.setValue P c s a v = some s' → s'.cartRam = s.cartRam) ∧
    (∀ s', MBC1.setValue P c s a v = some s' → s'.cartRam ≠ s.cartRam →
      (0xA000 ≤ a ∧ a ≤ 0xBFFF) ∧ s.ramEnabled = true) := by
  refine ⟨fun hoff => ⟨fun ha => ?_, fun s' h => ?_⟩, fun s' h hne => ?_⟩
  · by_cases hl : a % 0x1000 = 0
    · have hab : a = 0xA000 ∨ a = 0xB000 := by omega
      rcases hab with e | e <;> subst e <;> unfold MBC1.setValue <;>
        simp only [hoff] <;> rfl
    · rw [MBC1_setValue_off_label P c s a v hl, MBC_setValue_extRam P _ a v ha]
      rfl
  · rcases MBC1_setValue_cartRam P c s s' a v h with e | ⟨-, he⟩
    · exact e
    · rw [hoff] at he; cases he
  · rcases MBC1_setValue_cartRam P c s s' a v h with e | ⟨hab, he⟩
    · exact absurd e hne
    · exact ⟨by omega, he⟩

/-- C15 on a fresh MBC1 (RAM disabled) at address 0xA000, and on an MBC1 with RAM
enabled whose write at 0xA000 replaces the first RAM byte. -/
theorem MBC1_disabled_ram_frame_witness :
    (MBC1.setValue stubIo zeroCart freshMBC1 0xA000 0x42 = some freshMBC1 ∧
      freshMBC1.cartRam = freshMBC1.cartRam) ∧
    ((0xA000 ≤ 0xA000 ∧ 0xA000 ≤ 0xBFFF) ∧ enabledMBC1.ramEnabled = true) :=
  have T := MBC1_disabled_ram_frame stubIo zeroCart freshMBC1 0xA000 0x42
  have hw : MBC1.setValue stubIo zeroCart enabledMBC1 0xA000 0x42 =
      some { enabledMBC1 with cartRam := [0x42, 2, 3] } := rfl
  ⟨⟨(T.1 rfl).1 (by decide), (T.1 rfl).2 freshMBC1 ((T.1 rfl).1 (by decide))⟩,
    (MBC1_disabled_ram_frame stubIo zeroCart enabledMBC1 0xA000 0x42).2 _ hw (by decide)⟩

/-! ## Bank remapping -/

/-- For a bank number up to 0x7F, `MBC1::mapRom` replaces `romBank` and the ROM
offset only, with the bank stepped up by one when its low five bits are zero. -/
theorem MBC1_mapRom_eq {ι : Type} (s : MBC1 ι) (b : Nat) (hb : b ≤ 0x7F) :
    s.mapRom b =
      { s with
        romBank := if b % 32 = 0 then b + 1 else b
        romPageStart := ROM_PAGE_LEN * (if b % 32 = 0 then b + 1 else b) } := by
  unfold MBC1.mapRom
  rw [Nat.mod_eq_of_lt (by unfold WORD_SIZE; omega)]
  dsimp only
  split
  · rfl
  · rfl
  · rfl
  · rfl
  · simp only [imp_false] at *
    have hne : ¬ b % 32 = 0 := by omega
    have hlt : ROM_PAGE_LEN * b % DWORD_SIZE = ROM_PAGE_LEN * b :=
      Nat.mod_eq_of_lt (by unfold ROM_PAGE_LEN DWORD_SIZE; omega)
    rw [if_neg hne, hlt]

/-- After `MBC1::mapRom` of a bank number up to 0x7F the mapped bank is never a
literal alias bank. -/
theorem MBC1_mapRom_mapped {ι : Type} (s : MBC1 ι) (b : Nat) (hb : b ≤ 0x7F) :
    (s.mapRom b).BankMapped := by
  rw [MBC1_mapRom_eq s b hb]
  unfold MBC1.BankMapped
  dsimp only
  rw [and_1F]
  refine ⟨?_, ?_, ?_, rfl⟩ <;> split <;> omega

/-- The bank number passed by the ROM-bank-select write is at most 0x7F. -/
theorem select_bank_le (r v : Nat) : (r &&& 0x60) ||| (v &&& 0x1F) ≤ 0x7F := by
  have h1 : r &&& 0x60 ≤ 0x60 := Nat.and_le_right
  have h2 : v &&& 0x1F ≤ 0x1F := Nat.and_le_right
  have h3 : (r &&& 0x60) ||| (v &&& 0x1F) < 2 ^ 7 :=
    Nat.or_lt_two_pow (by omega) (by omega)
  omega

/-- The bank number passed by the upper-bits write is at most 0x7F. -/
theorem upper_bank_le (r v : Nat) : (r &&& 0x1F) ||| ((v &&& 0x03) <<< 4) ≤ 0x7F := by
  have h1 : r &&& 0x1F ≤ 0x1F := Nat.and_le_right
  have h2 : v &&& 0x03 ≤ 0x03 := Nat.and_le_right
  have h3 : (v &&& 0x03) <<< 4 = (v &&& 0x03) * 16 := by
    rw [Nat.shiftLeft_eq]
  have h4 : (r &&& 0x1F) ||| ((v &&& 0x03) <<< 4) < 2 ^ 7 :=
    Nat.or_lt_two_pow (by omega) (by omega)
  omega

/-- A completed `MBC1::setValue` either keeps `romBank` and the ROM offset, with
the RAM offset kept or set to a page multiple, or is a `mapRom` of a bank number
up to 0x7F. -/
theorem MBC1_setValue_banks {ι : Type} (P : IoHandler ι) (c : Cartridge)
    (s s' : MBC1 ι) (a v : Nat) (h : MBC1.setValue P c s a v = some s') :
    (s'.romBank = s.romBank ∧ s'.romPageStart = s.romPageStart ∧
      (s'.ramPageStart = s.ramPageStart ∨
        s'.ramPageStart = ((v &&& 0x03) * RAM_PAGE_LEN) % DWORD_SIZE)) ∨
    (∃ b, b ≤ 0x7F ∧ s' = s.mapRom b) := by
  unfold MBC1.setValue at h
  split at h
  case h_5 | h_6 =>
    right
    cases h
    exact ⟨_, select_bank_le _ _, rfl⟩
  case h_7 | h_8 =>
    split at h
    · left; cases h; exact ⟨rfl, rfl, Or.inr rfl⟩
    · right; cases h; exact ⟨_, upper_bank_le _ _, rfl⟩
  case h_11 =>
    left
    obtain ⟨b, hb, hs'⟩ := Option.map_eq_some'.mp h
    obtain ⟨m', hm', hrom⟩ := MBC_setValue_result P _ _ a v hb
    subst hs'; subst hm'
    exact ⟨rfl, hrom, Or.inl rfl⟩
  case h_3 | h_4 =>
    left
    split at h
    · obtain ⟨b, -, hs'⟩ := Option.map_eq_some'.mp h
      subst hs'
      exact ⟨rfl, rfl, Or.inl rfl⟩
    · cases h; exact ⟨rfl, rfl, Or.inl rfl⟩
  all_goals
    left
    split at h <;> cases h <;> exact ⟨rfl, rfl, Or.inl rfl⟩

/-- For a selected bank from -1 to 3, the register-file write of `MBC3::setValue`
on the label 0xA000 or 0xB000 indexes `rtc` below zero. -/
theorem MBC3_rtc_write_out_of_bounds {ι : Type} (P : IoHandler ι) (c : Cartridge)
    (s : MBC3 ι) (a v : Nat) (ha : a = 0xA000 ∨ a = 0xB000)
    (hb : -1 ≤ s.ramBank ∧ s.ramBank ≤ 3) :
    s.ramBank - 0x08 < 0 ∧ MBC3.setValue P c s a v = none := by
  have hneg : ¬ (0 ≤ s.ramBank - 0x08) := by omega
  refine ⟨by omega, ?_⟩
  rcases ha with e | e <;> subst e <;> unfold MBC3.setValue <;>
    simp only [writeAtInt, hneg, if_false] <;> rfl

/-! ## Completion of writes -/

/-- C18: the ROM-bank-select write (labels 0x2000, 0x3000) and the upper-bits
write in extended-ROM-banking mode (labels 0x4000, 0x5000) complete, from any
`romBank`, in a state whose mapped bank is in 1–0x7F with non-zero low five bits
and whose ROM offset is that bank times the page length; every later completed
MBC1 write keeps that property. -/
theorem MBC1_never_maps_alias_bank {ι : Type} (P : IoHandler ι) (c : Cartridge)
    (s s' : MBC1 ι) (a v : Nat) :
    ((a = 0x2000 ∨ a = 0x3000 ∨ ((a = 0x4000 ∨ a = 0x5000) ∧ s.modeSelect = true)) →
      ∃ t, MBC1.setValue P c s a v = some t ∧ t.BankMapped) ∧
    (s.BankMapped → MBC1.setValue P c s a v = some s' → s'.BankMapped) := by
  constructor
  · rintro (e | e | ⟨e | e, hmode⟩)
    · subst e
      exact ⟨_, rfl, MBC1_mapRom_mapped s _ (select_bank_le _ _)⟩
    · subst e
      exact ⟨_, rfl, MBC1_mapRom_mapped s _ (select_bank_le _ _)⟩
    · subst e
      refine ⟨s.mapRom ((s.romBank &&& 0x1F) ||| ((v &&& 0x03) <<< 4)), ?_,
        MBC1_mapRom_mapped s _ (upper_bank_le _ _)⟩
      unfold MBC1.setValue
      simp only [hmode]
      rfl
    · subst e
      refine ⟨s.mapRom ((s.romBank &&& 0x1F) ||| ((v &&& 0x03) <<< 4)), ?_,
        MBC1_mapRom_mapped s _ (upper_bank_le _ _)⟩
      unfold MBC1.setValue
      simp only [hmode]
      rfl
  · intro hinv h
    rcases MBC1_setValue_banks P c s s' a v h with ⟨hbank, hrom, -⟩ | ⟨b, hle, hb⟩
    · unfold MBC1.BankMapped at hinv ⊢
      rw [hbank, hrom]
      exact hinv
    · rw [hb]
      exact MBC1_mapRom_mapped s b hle

/-- C18 on the write `write(0x2000, 0x00)` from bank 1, which completes in a
state with no alias bank mapped, and on the later write `write(0x4000, 0x02)` in
RAM-banking mode, which keeps bank 1 mapped. -/
theorem MBC1_never_maps_alias_bank_witness :
    (∃ t, MBC1.setValue stubIo zeroCart freshMBC1 0x2000 0x00 = some t ∧ t.BankMapped) ∧
    ({ freshMBC1 with ramPageStart := ((0x02 &&& 0x03) * RAM_PAGE_LEN) % DWORD_SIZE }
      : MBC1 Unit).BankMapped :=
  ⟨(MBC1_never_maps_alias_bank stubIo zeroCart freshMBC1 freshMBC1 0x2000 0x00).1
      (Or.inl rfl),
    (MBC1_never_maps_alias_bank stubIo zeroCart freshMBC1 _ 0x4000 0x02).2
      ⟨by decide, by decide, by decide, rfl⟩ rfl⟩

/-- C20 (code at the failing input): with the clock enabled, `write(0x4000, 0x08)`
selects the register file (`ramBank = -1`) and the following `write(0xA000, 0x42)`
indexes `rtc` at `-1 - 8 = -9`; after `write(0x4000, 0x02)` (RAM bank 2) the same
write indexes `rtc` at `2 - 8 = -6`.  Both indices are outside 0–3. -/
theorem MBC3_rtc_index_below_zero :
    ramModeMBC3.rtcEnabled = true ∧
    (MBC3.setValue stubIo zeroCart ramModeMBC3 0x4000 0x08).map
        (fun s => s.ramBank - 0x08) = some (-9) ∧
    (MBC3.setValue stubIo zeroCart ramModeMBC3 0x4000 0x08).bind
        (fun s => MBC3.setValue stubIo zeroCart s 0xA000 0x42) = none ∧
    (MBC3.setValue stubIo zeroCart ramModeMBC3 0x4000 0x02).map
        (fun s => s.ramBank - 0x08) = some (-6) ∧
    (MBC3.setValue stubIo zeroCart ramModeMBC3 0x4000 0x02).bind
        (fun s => MBC3.setValue stubIo zeroCart s 0xA000 0x42) = none :=
  ⟨rfl, rfl, rfl, rfl, rfl⟩

/-! ## Persistence and bounded nesting -/

/-- C12: with a battery and a buffer of `cartRamSize` bytes, `MBC::save` appends
exactly the buffer to the output and reports nothing; `MBC::load` of those bytes
into a controller of the same size, whatever its buffer held, leaves the buffer
equal to the saved one and reports nothing. -/
theorem save_load_round_trip {ι : Type} (c : Cartridge) (s t : MBC ι) (out : List Nat)
    (hb : c.hasBattery = true) (hs : s.cartRam.length = s.cartRamSize)
    (ht : t.cartRam.length = t.cartRamSize) (hsz : t.cartRamSize = s.cartRamSize) :
    MBC.save c s out = some (out ++ s.cartRam, []) ∧
    MBC.load c t ⟨true, s.cartRam⟩ = some ({ t with cartRam := s.cartRam }, []) := by
  constructor
  · unfold MBC.save
    simp [hb, hs]
  · unfold MBC.load
    have e1 : List.take s.cartRamSize s.cartRam = s.cartRam :=
      List.take_of_length_le (by omega)
    have e2 : List.drop s.cartRamSize t.cartRam = [] :=
      List.drop_eq_nil_of_le (by omega)
    simp [hb, ht, hsz, hs, e1, e2]

/-- C12 on a three-byte controller. -/
theorem save_load_round_trip_witness :
    MBC.save zeroCart savedMBC [] = some ([] ++ savedMBC.cartRam, []) ∧
    MBC.load zeroCart staleMBC ⟨true, savedMBC.cartRam⟩ =
      some ({ staleMBC with cartRam := savedMBC.cartRam }, []) :=
  save_load_round_trip zeroCart savedMBC staleMBC [] rfl rfl rfl rfl

/-- C13: with a battery, a readable source and a buffer of `cartRamSize` bytes,
`MBC::load` from fewer than `cartRamSize` bytes reports "cart data invalid" and
leaves the source bytes followed by zeros; in every case it completes, and it
reports something exactly when the source held fewer than `cartRamSize` bytes. -/
theorem short_load_integrity {ι : Type} (c : Cartridge) (s : MBC ι) (input : InStream)
    (hb : c.hasBattery = true) (hg : input.good = true)
    (hs : s.cartRam.length = s.cartRamSize) :
    (input.bytes.length < s.cartRamSize →
      MBC.load c s input =
        some ({ s with cartRam :=
                  input.bytes ++ List.replicate (s.cartRamSize - input.bytes.length) 0 },
              ["cart data invalid"])) ∧
    (∃ t errs, MBC.load c s input = some (t, errs) ∧
      (errs ≠ [] ↔ input.bytes.length < s.cartRamSize)) := by
  constructor
  · intro hk
    unfold MBC.load
    have h1 : input.bytes.length ≤ s.cartRamSize := by omega
    have h3 : ¬ input.bytes.length = s.cartRamSize := by omega
    have e2 : List.drop s.cartRamSize s.cartRam = [] :=
      List.drop_eq_nil_of_le (by omega)
    simp [hb, hg, hs, List.take_of_length_le h1, h3, e2]
  · unfold MBC.load
    simp only [hb, hg, hs, Bool.not_true, Bool.false_eq_true, if_false, if_true, le_refl]
    refine ⟨_, _, rfl, ?_⟩
    simp only [List.length_take]
    split <;> simp <;> omega

/-- C13 on a three-byte controller and a one-byte source. -/
theorem short_load_integrity_witness :
    MBC.load zeroCart staleMBC ⟨true, [7]⟩ =
      some ({ staleMBC with cartRam := [7] ++ List.replicate (3 - 1) 0 },
            ["cart data invalid"]) :=
  (short_load_integrity zeroCart staleMBC ⟨true, [7]⟩ rfl rfl rfl).1 (by decide)

/-- Below 0x4000 a single call of `Memory::getValue` returns the ROM byte. -/
theorem Memory_getValueFuel_rom0 {ι : Type} (P : IoHandler ι) (c : Cartridge)
    (m : Memory ι) (n a : Nat) (ha : a < 0x4000) :
    Memory.getValueFuel P c m (n + 1) a = some (some (c.romdata a)) := by
  have hk := and_F000 a
  unfold Memory.getValueFuel
  split <;> first | omega | rfl | (simp only [imp_false] at *; omega)

/-- Below 0x8000 a single call of `Memory::setValue` returns the state unchanged. -/
theorem Memory_setValueFuel_rom {ι : Type} (P : IoHandler ι) (m : Memory ι)
    (n a v : Nat) (ha : a < 0x8000) :
    Memory.setValueFuel P m (n + 1) a v = some (some m) := by
  have hk := and_F000 a
  unfold Memory.setValueFuel
  split <;> first | omega | rfl

/-- Outside 0xE000–0xFDFF a single call of `Memory::getValue` suffices. -/
theorem Memory_getValueFuel_direct {ι : Type} (P : IoHandler ι) (c : Cartridge)
    (m : Memory ι) (n a : Nat) (ha : ¬ (0xE000 ≤ a ∧ a ≤ 0xFDFF)) :
    Memory.getValueFuel P c m (n + 1) a = some (Memory.getValue P c m a) := by
  have hk := and_F000 a
  have hle := @Nat.and_le_left a 0xF000
  generalize hY : Memory.getValue P c m a = Y
  rw [Memory.getValue] at hY
  unfold Memory.getValueFuel
  split at hY <;> split <;> first
    | omega
    | (simp only [imp_false] at *; omega)
    | (subst hY; rfl)
    | (subst hY; split_ifs <;> first | rfl | omega)

/-- Outside 0xE000–0xFDFF a single call of `Memory::setValue` suffices. -/
theorem Memory_setValueFuel_direct {ι : Type} (P : IoHandler ι) (m : Memory ι)
    (n a v : Nat) (ha : ¬ (0xE000 ≤ a ∧ a ≤ 0xFDFF)) :
    Memory.setValueFuel P m (n + 1) a v = some (Memory.setValue P m a v) := by
  have hk := and_F000 a
  have hle := @Nat.and_le_left a 0xF000
  generalize hY : Memory.setValue P m a v = Y
  rw [Memory.setValue] at hY
  unfold Memory.setValueFuel
  split at hY <;> split <;> first
    | omega
    | (simp only [imp_false] at *; omega)
    | (subst hY; rfl)
    | (subst hY; split_ifs <;> first | rfl | omega)

/-- On 0xE000–0xFDFF a call of `Memory::getValue` makes one nested call, at the
address less 0xE000. -/
theorem Memory_getValueFuel_echo {ι : Type} (P : IoHandler ι) (c : Cartridge)
    (m : Memory ι) (n a : Nat) (ha : 0xE000 ≤ a ∧ a ≤ 0xFDFF) :
    Memory.getValueFuel P c m (n + 1) a = Memory.getValueFuel P c m n (a - 0xE000) := by
  have hk := and_F000 a
  have h1 : ¬ (0xFEA0 ≤ a ∧ a ≤ 0xFEFF) := by omega
  have h2 : a < 0xFE00 := by omega
  conv_lhs => unfold Memory.getValueFuel
  split <;> first | omega | (simp only [h1, h2, if_true, if_false]) |
    (simp only [imp_false] at *; omega)

/-- On 0xE000–0xFDFF a call of `Memory::setValue` makes one nested call, at the
address less 0xE000. -/
theorem Memory_setValueFuel_echo {ι : Type} (P : IoHandler ι) (m : Memory ι)
    (n a v : Nat) (ha : 0xE000 ≤ a ∧ a ≤ 0xFDFF) :
    Memory.setValueFuel P m (n + 1) a v = Memory.setValueFuel P m n (a - 0xE000) v := by
  have hk := and_F000 a
  have h1 : ¬ (0xFEA0 ≤ a ∧ a ≤ 0xFEFF) := by omega
  have h2 : a < 0xFE00 := by omega
  conv_lhs => unfold Memory.setValueFuel
  split <;> first | omega | (simp only [h1, h2, if_true, if_false]) |
    (simp only [imp_false] at *; omega)

/-- C17: two nested calls, the outermost included, complete every
`Memory::getValue` and every `Memory::setValue`; an address in 0xE000–0xFDFF is
redirected to an address in 0x0000–0x1DFF, where a single call completes with the
result of the whole read or write; outside 0xE000–0xFDFF a single call
completes. -/
theorem echo_redirect_bounded {ι : Type} (P : IoHandler ι) (c : Cartridge)
    (m : Memory ι) (a v : Nat) :
    Memory.getValueFuel P c m 2 a = some (Memory.getValue P c m a) ∧
    Memory.setValueFuel P m 2 a v = some (Memory.setValue P m a v) ∧
    ((0xE000 ≤ a ∧ a ≤ 0xFDFF) →
      a - 0xE000 ≤ 0x1DFF ∧
      Memory.getValueFuel P c m 1 (a - 0xE000) = some (Memory.getValue P c m a) ∧
      Memory.setValueFuel P m 1 (a - 0xE000) v = some (Memory.setValue P m a v)) ∧
    (¬ (0xE000 ≤ a ∧ a ≤ 0xFDFF) →
      Memory.getValueFuel P c m 1 a = some (Memory.getValue P c m a) ∧
      Memory.setValueFuel P m 1 a v = some (Memory.setValue P m a v)) := by
  have hecho : (0xE000 ≤ a ∧ a ≤ 0xFDFF) →
      a - 0xE000 ≤ 0x1DFF ∧
      Memory.getValueFuel P c m 1 (a - 0xE000) = some (Memory.getValue P c m a) ∧
      Memory.setValueFuel P m 1 (a - 0xE000) v = some (Memory.setValue P m a v) := by
    intro ha
    refine ⟨by omega, ?_, ?_⟩
    · rw [Memory_getValue_echo P c m a ha]
      exact Memory_getValueFuel_direct P c m 0 _ (by omega)
    · rw [Memory_setValue_echo P m a v ha]
      exact Memory_setValueFuel_direct P m 0 _ v (by omega)
  have hdirect : ∀ n, ¬ (0xE000 ≤ a ∧ a ≤ 0xFDFF) →
      Memory.getValueFuel P c m (n + 1) a = some (Memory.getValue P c m a) ∧
      Memory.setValueFuel P m (n + 1) a v = some (Memory.setValue P m a v) :=
    fun n ha => ⟨Memory_getValueFuel_direct P c m n a ha,
      Memory_setValueFuel_direct P m n a v ha⟩
  refine ⟨?_, ?_, hecho, hdirect 0⟩
  · by_cases ha : 0xE000 ≤ a ∧ a ≤ 0xFDFF
    · rw [Memory_getValueFuel_echo P c m 1 a ha]
      exact (hecho ha).2.1
    · exact (hdirect 1 ha).1
  · by_cases ha : 0xE000 ≤ a ∧ a ≤ 0xFDFF
    · rw [Memory_setValueFuel_echo P m 1 a v ha]
      exact (hecho ha).2.2
    · exact (hdirect 1 ha).2

/-- C17 at the echo address 0xE123 and at the direct address 0xC000. -/
theorem echo_redirect_bounded_witness :
    (0xE123 - 0xE000 ≤ 0x1DFF ∧
      Memory.getValueFuel stubIo zeroCart freshMemory 1 (0xE123 - 0xE000) =
        some (Memory.getValue stubIo zeroCart freshMemory 0xE123) ∧
      Memory.setValueFuel stubIo freshMemory 1 (0xE123 - 0xE000) 0x42 =
        some (Memory.setValue stubIo freshMemory 0xE123 0x42)) ∧
    (Memory.getValueFuel stubIo zeroCart freshMemory 1 0xC000 =
        some (Memory.getValue stubIo zeroCart freshMemory 0xC000) ∧
      Memory.setValueFuel stubIo freshMemory 1 0xC000 0x42 =
        some (Memory.setValue stubIo freshMemory 0xC000 0x42)) :=
  ⟨(echo_redirect_bounded stubIo zeroCart freshMemory 0xE123 0x42).2.2.1 (by decide),
    (echo_redirect_bounded stubIo zeroCart freshMemory 0xC000 0x42).2.2.2 (by decide)⟩

end KPGB
